import Mathlib

/-!
Verification of the vitest Discord reporter (`src/reporter.ts`).

JavaScript strings are modelled as lists of characters, absent optional
fields as `Option`, and the task tree as an inductive type with `Suite`
and `Test` variants.  Every definition mirrors the corresponding source
function; definitions whose doc comment says "spec-side" restate the
specification's words instead, for comparison.
-/

/-- Strings of the JavaScript source, modelled as lists of characters. -/
abbrev Str := List Char

/-- Turns a Lean string literal into the character-list model. -/
def str (s : String) : Str := s.data

/-- One error record of a failed test result; `message` and `stack` are
both optional in the source tree. -/
structure ErrorRec where
  message : Option Str
  stack : Option Str
deriving DecidableEq

/-- A test result: a `state` string and an optional list of errors. -/
structure TestResult where
  state : Str
  errors : Option (List ErrorRec)
deriving DecidableEq

/-- A node of the result tree: a leaf `test` (name, mode, optional result)
or a `suite` owning an ordered list of child tasks. -/
inductive RunnerTask where
  | test (name : Str) (mode : Str) (result : Option TestResult)
  | suite (name : Str) (tasks : List RunnerTask)

/-- The root container: a file name and its top-level tasks. -/
structure RunnerTestFile where
  name : Str
  tasks : List RunnerTask

/-- The reporter options after the constructor's defaulting. -/
structure DiscordReporterOptions where
  webhookUrl : Str
  title : Str
  includeStackTrace : Bool
  mentionOnFailure : Str
  showPassedTests : Bool

/-- The counters produced by `calculateStats`. -/
structure Stats where
  passed : Nat
  failed : Nat
  skipped : Nat
  total : Nat
deriving DecidableEq

/-- One `{name, value}` field of an embed; `inline` is optional. -/
structure EmbedField where
  name : Str
  value : Str
  inline : Option Bool
deriving DecidableEq

/-- An embed footer. -/
structure EmbedFooter where
  text : Str
deriving DecidableEq

/-- The output message unit (`APIEmbed` in the source). -/
structure APIEmbed where
  title : Option Str
  color : Option Nat
  description : Option Str
  fields : Option (List EmbedField)
  footer : Option EmbedFooter
  timestamp : Option Str
deriving DecidableEq

/-- Decimal digit characters of `n`, most significant first; the fuel
argument makes the recursion structural.  Model of JavaScript's decimal
`toString` rendering. -/
def natDigitsAux : Nat → Nat → Str
  | 0, _ => []
  | fuel + 1, n =>
    if n = 0 then [] else natDigitsAux fuel (n / 10) ++ [Nat.digitChar (n % 10)]

/-- The decimal string of `n` (model of JavaScript `Number.toString`). -/
def natToString (n : Nat) : Str :=
  if n = 0 then str "0" else natDigitsAux (n + 1) n

mutual
/-- The inner `countTests` closure of `calculateStats`: for a test,
increment `total` and then exactly one of the three buckets by priority;
for a suite, recurse into the children only. -/
def countTask (s : Stats) : RunnerTask → Stats
  | .test _ mode result =>
    let s1 : Stats := { s with total := s.total + 1 }
    if result.map (fun r => r.state) = some (str "pass") then
      { s1 with passed := s1.passed + 1 }
    else if result.map (fun r => r.state) = some (str "fail") then
      { s1 with failed := s1.failed + 1 }
    else if mode = str "skip" ∨ mode = str "todo" then
      { s1 with skipped := s1.skipped + 1 }
    else s1
  | .suite _ tasks => countTaskList s tasks

/-- Model of `tasks.forEach(countTests)` over a child list. -/
def countTaskList (s : Stats) : List RunnerTask → Stats
  | [] => s
  | t :: ts => countTaskList (countTask s t) ts
end

/-- Model of the `files.forEach` loop of `calculateStats`. -/
def countFileList (s : Stats) : List RunnerTestFile → Stats
  | [] => s
  | f :: fs => countFileList (countTaskList s f.tasks) fs

/-- Model of `calculateStats`: walks every file's task forest and returns the
four counters, all starting from zero. -/
def calculateStats (files : List RunnerTestFile) : Stats :=
  countFileList ⟨0, 0, 0, 0⟩ files

/-- Model of `truncateStackTrace` with its default 800-character cap: the stack
unchanged when within budget, otherwise its first 800 characters followed
by the truncation marker. -/
def truncateStackTrace (stack : Str) : Str :=
  if stack.length ≤ 800 then stack
  else stack.take 800 ++ str "\n... (truncated)"

/-- The first error record of a result, as read by `collectFailed`
(`task.result.errors?.[0]`). -/
def firstError (r : TestResult) : Option ErrorRec :=
  r.errors.bind fun es => es.head?

/-- The error text computed in `collectFailed`: the first error's message
with the JavaScript falsy fallback to "Unknown error" (an absent or empty
message falls back), plus a fenced stack trace when `includeStackTrace`
is set and the first error's stack is present and non-empty. -/
def failedErrorText (includeStackTrace : Bool) (r : TestResult) : Str :=
  let errorMessage : Str :=
    match (firstError r).bind (fun e => e.message) with
    | some m => if m = [] then str "Unknown error" else m
    | none => str "Unknown error"
  let stackTrace : Str :=
    match (firstError r).bind (fun e => e.stack) with
    | some st => st
    | none => []
  if includeStackTrace = true ∧ stackTrace ≠ [] then
    errorMessage ++ str "\n```\n" ++ truncateStackTrace stackTrace ++ str "\n```"
  else errorMessage

/-- Joins an ancestry path with `" > "` (`currentPath.join(' > ')`). -/
def joinPath (path : List Str) : Str := List.intercalate (str " > ") path

/-- One record of the failed-test list. -/
structure FailedTest where
  name : Str
  error : Str
deriving DecidableEq

mutual
/-- The inner `collectFailed` closure of `getFailedTests`: a
path-accumulating pre-order walk emitting one record per test whose
result state is "fail". -/
def collectFailedTask (inc : Bool) (path : List Str) : RunnerTask → List FailedTest
  | .test name _ result =>
    match result with
    | some r =>
      if r.state = str "fail" then
        [⟨joinPath (path ++ [name]), failedErrorText inc r⟩]
      else []
    | none => []
  | .suite name tasks => collectFailedTaskList inc (path ++ [name]) tasks

/-- Model of `tasks.forEach((t) => collectFailed(t, currentPath))`. -/
def collectFailedTaskList (inc : Bool) (path : List Str) : List RunnerTask → List FailedTest
  | [] => []
  | t :: ts => collectFailedTask inc path t ++ collectFailedTaskList inc path ts
end

/-- Model of `getFailedTests`: each file's top-level tasks are walked with the
path seeded by the file's name, files in original order. -/
def getFailedTests (inc : Bool) : List RunnerTestFile → List FailedTest
  | [] => []
  | f :: fs => collectFailedTaskList inc [f.name] f.tasks ++ getFailedTests inc fs

mutual
/-- The inner `collectPassed` closure of `buildPassedTestsEmbed`: same
walk as `collectFailed` but emitting the path string of every test whose
result state is "pass". -/
def collectPassedTask (path : List Str) : RunnerTask → List Str
  | .test name _ result =>
    match result with
    | some r => if r.state = str "pass" then [joinPath (path ++ [name])] else []
    | none => []
  | .suite name tasks => collectPassedTaskList (path ++ [name]) tasks

/-- Model of `tasks.forEach((t) => collectPassed(t, currentPath))`. -/
def collectPassedTaskList (path : List Str) : List RunnerTask → List Str
  | [] => []
  | t :: ts => collectPassedTask path t ++ collectPassedTaskList path ts
end

/-- The `passedTests` list collected by `buildPassedTestsEmbed`. -/
def collectPassedTests : List RunnerTestFile → List Str
  | [] => []
  | f :: fs => collectPassedTaskList [f.name] f.tasks ++ collectPassedTests fs

/-- The field-name truncation of `buildFailedTestsEmbed` (256-char cap,
cut to 253 characters plus "..." when over). -/
def truncFieldName (s : Str) : Str :=
  if s.length > 256 then s.take 253 ++ str "..." else s

/-- The field-value truncation of `buildFailedTestsEmbed` (1024-char cap,
cut to 1021 characters plus "..." when over). -/
def truncFieldValue (s : Str) : Str :=
  if s.length > 1024 then s.take 1021 ++ str "..." else s

/-- The description truncation of `buildPassedTestsEmbed` (2048-char cap,
cut to 2045 characters plus "..." when over). -/
def truncPassedBody (s : Str) : Str :=
  if s.length > 2048 then s.take 2045 ++ str "..." else s

/-- Model of `buildFailedTestsEmbed`: `none` on an empty list, otherwise an embed
whose fields are the first 10 records with name/value truncated, with a
"Showing 10 of N" description when more than 10 records exist. -/
def buildFailedTestsEmbed (failedTests : List FailedTest) : Option APIEmbed :=
  if failedTests.length = 0 then none
  else
    let fields := (failedTests.take 10).map fun t =>
      ({ name := truncFieldName t.name, value := truncFieldValue t.error,
         inline := none } : EmbedField)
    some
      { title := some (str "❌ Failed Tests")
        color := some 0xed4245
        description :=
          if failedTests.length > 10 then
            some (str "Showing 10 of " ++ natToString failedTests.length
                  ++ str " failed tests")
          else none
        fields := some fields
        footer := none
        timestamp := none }

/-- Model of `buildPassedTestsEmbed`: collects the passed paths itself, returns
`none` when there are none, otherwise an embed whose description is the
first 20 paths prefixed "✓ ", newline-joined and truncated at 2048, with
the "All tests passed!" fallback for an empty body and a footer when more
than 20 passed tests exist. -/
def buildPassedTestsEmbed (files : List RunnerTestFile) : Option APIEmbed :=
  let passedTests := collectPassedTests files
  if passedTests.length = 0 then none
  else
    let testList :=
      List.intercalate (str "\n") ((passedTests.take 20).map fun t => str "✓ " ++ t)
    let description := truncPassedBody testList
    some
      { title := some (str "✅ Passed Tests")
        color := some 0x57f287
        description := some (if description = [] then str "All tests passed!" else description)
        fields := none
        footer :=
          if passedTests.length > 20 then
            some ⟨str "Showing 20 of " ++ natToString passedTests.length
                  ++ str " passed tests"⟩
          else none
        timestamp := none }

/-- Model of `(duration / 1000).toFixed(2)` suffixed "s": the millisecond
duration rounded half-up to centiseconds (on the exact rational, standing
in for the binary float) and printed with exactly two decimal places. -/
def formatDuration (durationMs : Nat) : Str :=
  let cs := (durationMs + 5) / 10
  natToString (cs / 100) ++ str "." ++
    [Nat.digitChar (cs / 10 % 10), Nat.digitChar (cs % 10)] ++ str "s"

/-- Model of `buildEmbeds`: the summary embed first, then the failed-details embed
when the failed list is non-empty, then the passed-details embed when
`showPassedTests` is set and the passed counter is positive.  The
`timestamp` parameter models `new Date().toISOString()`. -/
def buildEmbeds (opts : DiscordReporterOptions) (files : List RunnerTestFile)
    (duration : Nat) (timestamp : Str) : List APIEmbed :=
  let stats := calculateStats files
  let summaryEmbed : APIEmbed :=
    { title := some opts.title
      color := some (if stats.failed > 0 then 0xed4245 else 0x57f287)
      description :=
        if stats.failed > 0 ∧ opts.mentionOnFailure ≠ [] then
          some opts.mentionOnFailure
        else none
      fields := some
        [ { name := str "✅ Passed", value := natToString stats.passed, inline := some true }
        , { name := str "❌ Failed", value := natToString stats.failed, inline := some true }
        , { name := str "⏭️ Skipped", value := natToString stats.skipped, inline := some true }
        , { name := str "⏱️ Duration", value := formatDuration duration, inline := some true }
        , { name := str "📊 Total", value := natToString stats.total, inline := some true } ]
      footer := none
      timestamp := some timestamp }
  let failedTests := getFailedTests opts.includeStackTrace files
  let failedPart : List APIEmbed :=
    if failedTests.length > 0 then
      match buildFailedTestsEmbed failedTests with
      | some e => [e]
      | none => []
    else []
  let passedPart : List APIEmbed :=
    if opts.showPassedTests = true ∧ stats.passed > 0 then
      match buildPassedTestsEmbed files with
      | some e => [e]
      | none => []
    else []
  [summaryEmbed] ++ failedPart ++ passedPart

/-- One logger event of the finish handler. -/
inductive LogEvent where
  | logLine (msg : Str)
  | warnLine (msg : Str)
  | errorLine (msg : Str) (cause : Str)
deriving DecidableEq

/-- Outcome of the opaque delivery call `sendDiscordMessage`, were it to
be invoked: it either resolves or rejects with a cause. -/
inductive SendOutcome where
  | resolved
  | rejected (cause : Str)
deriving DecidableEq

/-- Pure model of the try/catch in `onFinished`, after the embeds are
built: given the resolved webhook URL and what the opaque delivery would
do, returns whether delivery was invoked together with the logger events.
Being a total function into a plain pair, no exception escapes. -/
def finishDelivery (webhookUrl : Str) (outcome : SendOutcome) : Bool × List LogEvent :=
  if webhookUrl ≠ [] then
    match outcome with
    | .resolved => (true, [.logLine (str "✅ Discord notification sent")])
    | .rejected cause =>
      (true, [.errorLine (str "❌ Failed to send Discord notification:") cause])
  else
    (false, [.warnLine (str "⚠️ Discord webhook URL not provided. Skipping notification.")])

/-! ## Spec-side definitions

The following definitions restate the specification's words (pre-order
depth-first enumeration of the Test leaves with their ancestry paths, and
classification of each leaf) so the code-side traversals above can be
compared against them. -/

/-- The data carried by one Test leaf. -/
structure TestLeaf where
  name : Str
  mode : Str
  result : Option TestResult
deriving DecidableEq

mutual
/-- Spec-side pre-order, depth-first enumeration of a task's Test leaves,
each paired with its ancestry path (ancestors' names then its own). -/
def preTask (path : List Str) : RunnerTask → List (List Str × TestLeaf)
  | .test name mode result => [(path ++ [name], ⟨name, mode, result⟩)]
  | .suite name tasks => preTaskList (path ++ [name]) tasks

/-- Pre-order enumeration of a task list, left to right. -/
def preTaskList (path : List Str) : List RunnerTask → List (List Str × TestLeaf)
  | [] => []
  | t :: ts => preTask path t ++ preTaskList path ts
end

/-- Spec-side pre-order enumeration over the file list in original array
order, the path seeded with each file's name. -/
def preTests : List RunnerTestFile → List (List Str × TestLeaf)
  | [] => []
  | f :: fs => preTaskList [f.name] f.tasks ++ preTests fs

/-- A leaf counts as passed when its result state is "pass". -/
def isPassLeaf (l : TestLeaf) : Bool :=
  decide (l.result.map (fun r => r.state) = some (str "pass"))

/-- A leaf counts as failed when its result state is "fail". -/
def isFailLeaf (l : TestLeaf) : Bool :=
  decide (l.result.map (fun r => r.state) = some (str "fail"))

/-- A leaf counts as skipped when it is neither passed nor failed and its
mode is "skip" or "todo". -/
def isSkipLeaf (l : TestLeaf) : Bool :=
  !(isPassLeaf l) && !(isFailLeaf l)
    && decide (l.mode = str "skip" ∨ l.mode = str "todo")

/-- A leaf is unclassified when it matches none of the three buckets. -/
def isUnclassifiedLeaf (l : TestLeaf) : Bool :=
  !(isPassLeaf l) && !(isFailLeaf l)
    && !(decide (l.mode = str "skip" ∨ l.mode = str "todo"))

/-- Spec-side statistics: bucket counts over the pre-order leaf list. -/
def specStats (files : List RunnerTestFile) : Stats :=
  let ls := (preTests files).map (fun p => p.2)
  { passed := ls.countP isPassLeaf
    failed := ls.countP isFailLeaf
    skipped := ls.countP isSkipLeaf
    total := ls.length }

/-- The error text of a leaf's record, as computed by the source. -/
def leafErrorText (inc : Bool) (l : TestLeaf) : Str :=
  match l.result with
  | some r => failedErrorText inc r
  | none => []

/-- Spec-side failed list: filter the pre-order leaves on a "fail" result
state, and render each as a record whose name is the ancestry path joined
by " > " (file name first). -/
def specFailedTests (inc : Bool) (files : List RunnerTestFile) : List FailedTest :=
  ((preTests files).filter (fun p => isFailLeaf p.2)).map
    (fun p => ⟨joinPath p.1, leafErrorText inc p.2⟩)

/-- Spec-side passed list: filter the pre-order leaves on a "pass" result
state and keep the joined ancestry path. -/
def specPassedTests (files : List RunnerTestFile) : List Str :=
  ((preTests files).filter (fun p => isPassLeaf p.2)).map (fun p => joinPath p.1)

/-! ## Induction principle for the nested task tree -/

mutual
/-- Simultaneous induction over a task and a task list. -/
def RunnerTask.indAux (P : RunnerTask → Prop) (Q : List RunnerTask → Prop)
    (h1 : ∀ n m r, P (.test n m r)) (h2 : ∀ n ts, Q ts → P (.suite n ts))
    (h3 : Q []) (h4 : ∀ t ts, P t → Q ts → Q (t :: ts)) :
    ∀ t : RunnerTask, P t
  | .test n m r => h1 n m r
  | .suite n ts => h2 n ts (RunnerTask.indListAux P Q h1 h2 h3 h4 ts)

/-- Simultaneous induction over a task list. -/
def RunnerTask.indListAux (P : RunnerTask → Prop) (Q : List RunnerTask → Prop)
    (h1 : ∀ n m r, P (.test n m r)) (h2 : ∀ n ts, Q ts → P (.suite n ts))
    (h3 : Q []) (h4 : ∀ t ts, P t → Q ts → Q (t :: ts)) :
    ∀ ts : List RunnerTask, Q ts
  | [] => h3
  | t :: ts => h4 t ts (RunnerTask.indAux P Q h1 h2 h3 h4 t)
      (RunnerTask.indListAux P Q h1 h2 h3 h4 ts)
end

/-- Spec-side field-name rendering: the path unchanged when at most 256
characters, otherwise its first 253 characters plus "...". -/
def specTruncName (s : Str) : Str :=
  if s.length ≤ 256 then s else s.take 253 ++ str "..."

/-- Spec-side field-value rendering: the error text unchanged when at
most 1024 characters, otherwise its first 1021 characters plus "...". -/
def specTruncValue (s : Str) : Str :=
  if s.length ≤ 1024 then s else s.take 1021 ++ str "..."

/-- Spec-side passed-details body: the first 20 passed paths each
prefixed "✓ " and newline-joined, cut to 2045 characters plus "..." when
the joined string exceeds 2048 characters, with "All tests passed!"
substituted when the body is empty. -/
def specPassedBody (pts : List Str) : Str :=
  let joined := List.intercalate (str "\n") ((pts.take 20).map fun t => str "✓ " ++ t)
  let body0 := if 2048 < joined.length then joined.take 2045 ++ str "..." else joined
  if body0 = [] then str "All tests passed!" else body0

/-- Spec-side error text (amended claim): the first error's message, or
"Unknown error" when the message is absent or empty; when
`includeStackTrace` is enabled and a non-empty stack string exists, the
message followed by a fenced code block containing the stack truncated at
800 characters, with the truncation marker appended exactly when the
original stack exceeds 800 characters. -/
def specErrorText (inc : Bool) (r : TestResult) : Str :=
  let msg : Str :=
    match (firstError r).bind (fun e => e.message) with
    | some m => if m = [] then str "Unknown error" else m
    | none => str "Unknown error"
  match (firstError r).bind (fun e => e.stack) with
  | some st =>
    if inc = true ∧ st ≠ [] then
      msg ++ str "\n```\n"
        ++ (if 800 < st.length then st.take 800 ++ str "\n... (truncated)" else st)
        ++ str "\n```"
    else msg
  | none => msg

/-! ## Concrete inputs used by counterexamples and witnesses -/

/-- A configuration whose `mentionOnFailure` string is 2049 characters. -/
def longMentionOpts : DiscordReporterOptions :=
  ⟨[], str "Test Results", false, List.replicate 2049 'a', true⟩

/-- A small configuration with all features on. -/
def smallOpts : DiscordReporterOptions :=
  ⟨str "https://example.test/hook", str "Test Results", true, str "@here", true⟩

/-- A result that failed with a present but empty error message. -/
def emptyMsgResult : TestResult :=
  ⟨str "fail", some [⟨some [], some (str "trace line")⟩]⟩

/-- One file containing a single failing test whose first error has an
empty message. -/
def emptyMsgFile : RunnerTestFile :=
  ⟨str "math.test.ts", [.test (str "adds") (str "run") (some emptyMsgResult)]⟩

/-- A small file list with one passed, one failed and one skipped test
under one suite. -/
def smallFiles : List RunnerTestFile :=
  [⟨str "math.test.ts",
    [.suite (str "suite")
      [.test (str "adds") (str "run") (some ⟨str "pass", none⟩),
       .test (str "subs") (str "run")
         (some ⟨str "fail", some [⟨some (str "boom"), some (str "at subs")⟩]⟩),
       .test (str "muls") (str "skip") none]]⟩]

/-! ## The stats traversal agrees with the spec-side description -/

/-- Componentwise sum of two counter records. -/
def statsAdd (a b : Stats) : Stats :=
  ⟨a.passed + b.passed, a.failed + b.failed, a.skipped + b.skipped, a.total + b.total⟩

/-- Bucket counts of a list of leaves. -/
def leafStats (ls : List TestLeaf) : Stats :=
  ⟨ls.countP isPassLeaf, ls.countP isFailLeaf, ls.countP isSkipLeaf, ls.length⟩

theorem statsAdd_assoc (a b c : Stats) :
    statsAdd (statsAdd a b) c = statsAdd a (statsAdd b c) := by
  simp [statsAdd, Stats.mk.injEq]; omega

theorem leafStats_append (a b : List TestLeaf) :
    leafStats (a ++ b) = statsAdd (leafStats a) (leafStats b) := by
  simp [leafStats, statsAdd, List.countP_append]

theorem pass_str_ne_fail_str : ¬ (str "pass" = str "fail") := by decide

theorem fail_str_ne_pass_str : ¬ (str "fail" = str "pass") := by decide

theorem countTaskList_eq (ts : List RunnerTask) (s : Stats) (path : List Str) :
    countTaskList s ts
      = statsAdd s (leafStats ((preTaskList path ts).map Prod.snd)) := by
  revert s path
  refine RunnerTask.indListAux
    (fun t => ∀ (s : Stats) (path : List Str),
      countTask s t = statsAdd s (leafStats ((preTask path t).map Prod.snd)))
    (fun ts => ∀ (s : Stats) (path : List Str),
      countTaskList s ts = statsAdd s (leafStats ((preTaskList path ts).map Prod.snd)))
    ?_ ?_ ?_ ?_ ts
  · intro n m res s path
    obtain ⟨sp, sf, sk, st⟩ := s
    by_cases h1 : res.map (fun r => r.state) = some (str "pass")
    · simp [countTask, preTask, leafStats, statsAdd, isPassLeaf, isFailLeaf,
        isSkipLeaf, h1, pass_str_ne_fail_str, List.countP_cons]
    · by_cases h2 : res.map (fun r => r.state) = some (str "fail")
      · simp [countTask, preTask, leafStats, statsAdd, isPassLeaf, isFailLeaf,
          isSkipLeaf, h1, h2, fail_str_ne_pass_str, List.countP_cons]
      · by_cases h3 : m = str "skip" ∨ m = str "todo"
        · simp [countTask, preTask, leafStats, statsAdd, isPassLeaf, isFailLeaf,
            isSkipLeaf, h1, h2, h3, List.countP_cons]
        · simp [countTask, preTask, leafStats, statsAdd, isPassLeaf, isFailLeaf,
            isSkipLeaf, h1, h2, h3, List.countP_cons]
  · intro n ts ih s path
    simpa [countTask, preTask] using ih s (path ++ [n])
  · intro s path
    simp [countTaskList, preTaskList, leafStats, statsAdd]
  · intro t ts iht ihts s path
    simp only [countTaskList, preTaskList, List.map_append, leafStats_append]
    rw [ihts (countTask s t) path, iht s path, statsAdd_assoc]

theorem countFileList_eq (fs : List RunnerTestFile) (s : Stats) :
    countFileList s fs = statsAdd s (leafStats ((preTests fs).map Prod.snd)) := by
  induction fs generalizing s with
  | nil => simp [countFileList, preTests, leafStats, statsAdd]
  | cons f fs ih =>
    simp only [countFileList, preTests, List.map_append, leafStats_append]
    rw [ih, countTaskList_eq f.tasks s [f.name], statsAdd_assoc]

theorem calculateStats_eq_leafStats (files : List RunnerTestFile) :
    calculateStats files = leafStats ((preTests files).map Prod.snd) := by
  rw [calculateStats, countFileList_eq]
  simp [statsAdd, leafStats]

theorem calculateStats_eq_spec (files : List RunnerTestFile) :
    calculateStats files = specStats files := by
  rw [calculateStats_eq_leafStats]; rfl

theorem isFailLeaf_eq_false_of_pass {l : TestLeaf} (h : isPassLeaf l = true) :
    isFailLeaf l = false := by
  simp only [isPassLeaf, decide_eq_true_eq] at h
  simp only [isFailLeaf, h, decide_eq_false_iff_not]
  intro hc
  exact pass_str_ne_fail_str (Option.some.inj (h ▸ hc))

/-- Every leaf falls in exactly one of the four buckets. -/
theorem leaf_partition (ls : List TestLeaf) :
    ls.length = ls.countP isPassLeaf + ls.countP isFailLeaf
      + ls.countP isSkipLeaf + ls.countP isUnclassifiedLeaf := by
  induction ls with
  | nil => simp
  | cons l ls ih =>
    simp only [List.length_cons, List.countP_cons]
    cases hp : isPassLeaf l
    · cases hf : isFailLeaf l
      · cases hm : decide (l.mode = str "skip" ∨ l.mode = str "todo")
        · simp [isSkipLeaf, isUnclassifiedLeaf, hp, hf, hm]; omega
        · simp [isSkipLeaf, isUnclassifiedLeaf, hp, hf, hm]; omega
      · simp [isSkipLeaf, isUnclassifiedLeaf, hp, hf]; omega
    · have hf := isFailLeaf_eq_false_of_pass hp
      simp [isSkipLeaf, isUnclassifiedLeaf, hp, hf]; omega

/-! ## The two detail collectors agree with the spec-side description -/

theorem collectFailedTaskList_eq (inc : Bool) (ts : List RunnerTask) (path : List Str) :
    collectFailedTaskList inc path ts
      = ((preTaskList path ts).filter (fun p => isFailLeaf p.2)).map
          (fun p => ⟨joinPath p.1, leafErrorText inc p.2⟩) := by
  revert path
  refine RunnerTask.indListAux
    (fun t => ∀ path : List Str,
      collectFailedTask inc path t
        = ((preTask path t).filter (fun p => isFailLeaf p.2)).map
            (fun p => ⟨joinPath p.1, leafErrorText inc p.2⟩))
    (fun ts => ∀ path : List Str,
      collectFailedTaskList inc path ts
        = ((preTaskList path ts).filter (fun p => isFailLeaf p.2)).map
            (fun p => ⟨joinPath p.1, leafErrorText inc p.2⟩))
    ?_ ?_ ?_ ?_ ts
  · intro n m res path
    cases res with
    | none => simp [collectFailedTask, preTask, isFailLeaf]
    | some r =>
      by_cases h : r.state = str "fail"
      · simp [collectFailedTask, preTask, isFailLeaf, h, leafErrorText]
      · simp [collectFailedTask, preTask, isFailLeaf, h]
  · intro n ts ih path
    simpa [collectFailedTask, preTask] using ih (path ++ [n])
  · intro path
    simp [collectFailedTaskList, preTaskList]
  · intro t ts iht ihts path
    simp [collectFailedTaskList, preTaskList, List.filter_append, iht, ihts]

theorem getFailedTests_eq_spec (inc : Bool) (files : List RunnerTestFile) :
    getFailedTests inc files = specFailedTests inc files := by
  induction files with
  | nil => simp [getFailedTests, specFailedTests, preTests]
  | cons f fs ih =>
    simp [getFailedTests, specFailedTests, preTests, List.filter_append,
      collectFailedTaskList_eq, ih]

theorem collectPassedTaskList_eq (ts : List RunnerTask) (path : List Str) :
    collectPassedTaskList path ts
      = ((preTaskList path ts).filter (fun p => isPassLeaf p.2)).map
          (fun p => joinPath p.1) := by
  revert path
  refine RunnerTask.indListAux
    (fun t => ∀ path : List Str,
      collectPassedTask path t
        = ((preTask path t).filter (fun p => isPassLeaf p.2)).map (fun p => joinPath p.1))
    (fun ts => ∀ path : List Str,
      collectPassedTaskList path ts
        = ((preTaskList path ts).filter (fun p => isPassLeaf p.2)).map (fun p => joinPath p.1))
    ?_ ?_ ?_ ?_ ts
  · intro n m res path
    cases res with
    | none => simp [collectPassedTask, preTask, isPassLeaf]
    | some r =>
      by_cases h : r.state = str "pass"
      · simp [collectPassedTask, preTask, isPassLeaf, h]
      · simp [collectPassedTask, preTask, isPassLeaf, h]
  · intro n ts ih path
    simpa [collectPassedTask, preTask] using ih (path ++ [n])
  · intro path
    simp [collectPassedTaskList, preTaskList]
  · intro t ts iht ihts path
    simp [collectPassedTaskList, preTaskList, List.filter_append, iht, ihts]

theorem collectPassedTests_eq_spec (files : List RunnerTestFile) :
    collectPassedTests files = specPassedTests files := by
  induction files with
  | nil => simp [collectPassedTests, specPassedTests, preTests]
  | cons f fs ih =>
    simp [collectPassedTests, specPassedTests, preTests, List.filter_append,
      collectPassedTaskList_eq, ih]

/-! ## Count agreement between the three traversals -/

theorem getFailedTests_length (inc : Bool) (files : List RunnerTestFile) :
    (getFailedTests inc files).length = (calculateStats files).failed := by
  rw [getFailedTests_eq_spec, calculateStats_eq_leafStats]
  simp only [specFailedTests, leafStats, List.length_map]
  rw [← List.countP_eq_length_filter, List.countP_map]
  rfl

theorem collectPassedTests_length (files : List RunnerTestFile) :
    (collectPassedTests files).length = (calculateStats files).passed := by
  rw [collectPassedTests_eq_spec, calculateStats_eq_leafStats]
  simp only [specPassedTests, leafStats, List.length_map]
  rw [← List.countP_eq_length_filter, List.countP_map]
  rfl

theorem calculateStats_passed_le_total (files : List RunnerTestFile) :
    (calculateStats files).passed ≤ (calculateStats files).total := by
  rw [calculateStats_eq_leafStats]
  exact List.countP_le_length _

theorem calculateStats_failed_le_total (files : List RunnerTestFile) :
    (calculateStats files).failed ≤ (calculateStats files).total := by
  rw [calculateStats_eq_leafStats]
  exact List.countP_le_length _

theorem calculateStats_skipped_le_total (files : List RunnerTestFile) :
    (calculateStats files).skipped ≤ (calculateStats files).total := by
  rw [calculateStats_eq_leafStats]
  exact List.countP_le_length _

/-! ## Truncation bounds and idempotence -/

theorem truncFieldName_length (s : Str) : (truncFieldName s).length ≤ 256 := by
  rw [truncFieldName]
  split
  · next h =>
    have h3 : (str "...").length = 3 := rfl
    simp [List.length_append, List.length_take, h3]
  · next h => omega

theorem truncFieldValue_length (s : Str) : (truncFieldValue s).length ≤ 1024 := by
  rw [truncFieldValue]
  split
  · next h =>
    have h3 : (str "...").length = 3 := rfl
    simp [List.length_append, List.length_take, h3]
  · next h => omega

theorem truncPassedBody_length (s : Str) : (truncPassedBody s).length ≤ 2048 := by
  rw [truncPassedBody]
  split
  · next h =>
    have h3 : (str "...").length = 3 := rfl
    simp [List.length_append, List.length_take, h3]
  · next h => omega

theorem truncFieldName_idem (s : Str) :
    truncFieldName (truncFieldName s) = truncFieldName s := by
  have h := truncFieldName_length s
  rw [show truncFieldName (truncFieldName s)
      = if (truncFieldName s).length > 256 then (truncFieldName s).take 253 ++ str "..."
        else truncFieldName s from rfl, if_neg (by omega)]

theorem truncFieldValue_idem (s : Str) :
    truncFieldValue (truncFieldValue s) = truncFieldValue s := by
  have h := truncFieldValue_length s
  rw [show truncFieldValue (truncFieldValue s)
      = if (truncFieldValue s).length > 1024 then (truncFieldValue s).take 1021 ++ str "..."
        else truncFieldValue s from rfl, if_neg (by omega)]

theorem truncPassedBody_idem (s : Str) :
    truncPassedBody (truncPassedBody s) = truncPassedBody s := by
  have h := truncPassedBody_length s
  rw [show truncPassedBody (truncPassedBody s)
      = if (truncPassedBody s).length > 2048 then (truncPassedBody s).take 2045 ++ str "..."
        else truncPassedBody s from rfl, if_neg (by omega)]

theorem truncateStackTrace_idem (s : Str) :
    truncateStackTrace (truncateStackTrace s) = truncateStackTrace s := by
  by_cases h : s.length ≤ 800
  · simp [truncateStackTrace, h]
  · have htake : (s.take 800).length = 800 := by
      simp [List.length_take]; omega
    have hmark : (str "\n... (truncated)").length = 16 := rfl
    have h1 : truncateStackTrace s = s.take 800 ++ str "\n... (truncated)" := by
      rw [truncateStackTrace, if_neg h]
    have hta : ∀ a b : Str, a.length = 800 → (a ++ b).take 800 = a := by
      intro a b hab
      rw [← hab, List.take_left]
    rw [h1, truncateStackTrace,
      if_neg (by simp [List.length_append, htake, hmark]),
      hta _ _ htake]

/-! ## Length of the decimal rendering -/

theorem natDigitsAux_length (fuel : Nat) :
    ∀ n k : Nat, n < 10 ^ k → (natDigitsAux fuel n).length ≤ k := by
  induction fuel with
  | zero => intro n k h; simp [natDigitsAux]
  | succ fuel ih =>
    intro n k h
    rw [natDigitsAux]
    split
    · simp
    · next hn =>
      have hk : k ≠ 0 := by
        rintro rfl
        rw [pow_zero] at h
        omega
      obtain ⟨k, rfl⟩ := Nat.exists_eq_succ_of_ne_zero hk
      have hdiv : n / 10 < 10 ^ k := by
        rw [Nat.div_lt_iff_lt_mul (by norm_num)]
        calc n < 10 ^ (k + 1) := h
          _ = 10 ^ k * 10 := by rw [pow_succ]
      have := ih (n / 10) k hdiv
      simp only [List.length_append, List.length_cons, List.length_nil]
      omega

theorem natToString_length_le {n k : Nat} (h : n < 10 ^ k) (hk : 1 ≤ k) :
    (natToString n).length ≤ k := by
  rw [natToString]
  split
  · have h1 : (str "0").length = 1 := rfl
    omega
  · exact natDigitsAux_length (n + 1) n k h

theorem formatDuration_length_le {d : Nat} (hd : d < 10 ^ 1021) :
    (formatDuration d).length ≤ 1024 := by
  have hpow : (10 : ℕ) ^ 1020 * (10 * 100) = 10 ^ 1023 := by
    rw [show (10 : ℕ) * 100 = 10 ^ 3 from by norm_num, ← pow_add]
  have h5 : (5 : ℕ) < 10 ^ 1021 := by
    calc (5 : ℕ) < 10 ^ 1 := by norm_num
      _ ≤ 10 ^ 1021 := Nat.pow_le_pow_right (by norm_num) (by norm_num)
  have hsum : (10 : ℕ) ^ 1021 + 10 ^ 1021 ≤ 10 ^ 1023 := by
    calc (10 : ℕ) ^ 1021 + 10 ^ 1021 = 2 * 10 ^ 1021 := by ring
      _ ≤ 10 ^ 2 * 10 ^ 1021 := Nat.mul_le_mul_right _ (by norm_num)
      _ = 10 ^ 1023 := by rw [← pow_add]
  have hdiv : (d + 5) / 10 / 100 < 10 ^ 1020 := by
    rw [Nat.div_div_eq_div_mul,
      Nat.div_lt_iff_lt_mul (by norm_num : 0 < 10 * 100), hpow]
    omega
  have hlen := natToString_length_le hdiv (by norm_num)
  have h1 : (str ".").length = 1 := rfl
  have h2 : (str "s").length = 1 := rfl
  simp only [formatDuration, List.length_append, List.length_cons, List.length_nil]
  omega

/-! ## Characterizations of the two detail-embed builders -/

theorem buildFailedTestsEmbed_of_ne_nil (l : List FailedTest) (h : l ≠ []) :
    buildFailedTestsEmbed l = some
      { title := some (str "❌ Failed Tests")
        color := some 0xed4245
        description :=
          if l.length > 10 then
            some (str "Showing 10 of " ++ natToString l.length ++ str " failed tests")
          else none
        fields := some ((l.take 10).map fun t =>
          ⟨truncFieldName t.name, truncFieldValue t.error, none⟩)
        footer := none
        timestamp := none } := by
  rw [buildFailedTestsEmbed, if_neg (by simp [List.length_eq_zero, h])]

theorem buildPassedTestsEmbed_of_ne_nil (files : List RunnerTestFile)
    (h : collectPassedTests files ≠ []) :
    buildPassedTestsEmbed files = some
      { title := some (str "✅ Passed Tests")
        color := some 0x57f287
        description := some
          (if truncPassedBody (List.intercalate (str "\n")
              (((collectPassedTests files).take 20).map fun t => str "✓ " ++ t)) = []
           then str "All tests passed!"
           else truncPassedBody (List.intercalate (str "\n")
              (((collectPassedTests files).take 20).map fun t => str "✓ " ++ t)))
        fields := none
        footer :=
          if (collectPassedTests files).length > 20 then
            some ⟨str "Showing 20 of " ++ natToString (collectPassedTests files).length
                  ++ str " passed tests"⟩
          else none
        timestamp := none } := by
  rw [buildPassedTestsEmbed]
  rw [if_neg (by simp [List.length_eq_zero, h])]

theorem buildPassedTestsEmbed_none_iff (files : List RunnerTestFile) :
    buildPassedTestsEmbed files = none ↔ collectPassedTests files = [] := by
  by_cases h : collectPassedTests files = []
  · rw [buildPassedTestsEmbed]
    simp [h]
  · rw [buildPassedTestsEmbed_of_ne_nil files h]
    simp [h]

theorem buildFailedTestsEmbed_props {l : List FailedTest} {e : APIEmbed}
    (h : buildFailedTestsEmbed l = some e) :
    e.title = some (str "❌ Failed Tests") ∧ e.timestamp = none
      ∧ e.color = some 0xed4245 := by
  by_cases hl : l = []
  · rw [hl] at h
    simp [buildFailedTestsEmbed] at h
  · rw [buildFailedTestsEmbed_of_ne_nil l hl] at h
    obtain rfl := Option.some.inj h
    exact ⟨rfl, rfl, rfl⟩

theorem buildPassedTestsEmbed_props {files : List RunnerTestFile} {e : APIEmbed}
    (h : buildPassedTestsEmbed files = some e) :
    e.title = some (str "✅ Passed Tests") ∧ e.timestamp = none
      ∧ e.color = some 0x57f287 ∧ e.fields = none := by
  by_cases hl : collectPassedTests files = []
  · rw [(buildPassedTestsEmbed_none_iff files).mpr hl] at h
    cases h
  · rw [buildPassedTestsEmbed_of_ne_nil files hl] at h
    obtain rfl := Option.some.inj h
    exact ⟨rfl, rfl, rfl, rfl⟩

theorem truncFieldName_eq_spec (s : Str) : truncFieldName s = specTruncName s := by
  rw [truncFieldName, specTruncName]
  rcases Nat.lt_or_ge 256 s.length with h | h
  · rw [if_pos h, if_neg (by omega)]
  · rw [if_neg (by omega), if_pos h]

theorem truncFieldValue_eq_spec (s : Str) : truncFieldValue s = specTruncValue s := by
  rw [truncFieldValue, specTruncValue]
  rcases Nat.lt_or_ge 1024 s.length with h | h
  · rw [if_pos h, if_neg (by omega)]
  · rw [if_neg (by omega), if_pos h]

/-! ## The claims -/

/-- C2: `calculateStats` performs a pre-order depth-first traversal that
counts every Test leaf once in `total` and in exactly one of the buckets,
in the priority order pass, fail, skip/todo mode; Suite nodes contribute
to no count; and `total = passed + failed + skipped + unclassified`,
where only Test leaves with no pass/fail result state and no skip/todo
mode are unclassified. -/
theorem c2_calculateStats_correct (files : List RunnerTestFile) :
    calculateStats files = specStats files ∧
    (calculateStats files).total
      = (calculateStats files).passed + (calculateStats files).failed
        + (calculateStats files).skipped
        + ((preTests files).map Prod.snd).countP isUnclassifiedLeaf := by
  refine ⟨calculateStats_eq_spec files, ?_⟩
  rw [calculateStats_eq_leafStats]
  simpa [leafStats] using leaf_partition ((preTests files).map Prod.snd)

/-- C3: `getFailedTests` returns exactly one record per Test leaf whose
result state is "fail", in pre-order depth-first traversal order over the
files in original array order, each record's name being the ancestry path
joined by " > " with the containing file's name first. -/
theorem c3_getFailedTests_correct (inc : Bool) (files : List RunnerTestFile) :
    getFailedTests inc files = specFailedTests inc files ∧
    (getFailedTests inc files).length
      = ((preTests files).map Prod.snd).countP isFailLeaf := by
  refine ⟨getFailedTests_eq_spec inc files, ?_⟩
  rw [getFailedTests_length, calculateStats_eq_leafStats]
  rfl

/-- C8: each of the four truncation functions (field name at 256, field
value at 1024, passed body at 2048, stack at 800) is the identity on a
string already within its limit, and is idempotent. -/
theorem c8_truncation_idempotent (s : Str) :
    (s.length ≤ 256 → truncFieldName s = s)
      ∧ truncFieldName (truncFieldName s) = truncFieldName s
      ∧ (s.length ≤ 1024 → truncFieldValue s = s)
      ∧ truncFieldValue (truncFieldValue s) = truncFieldValue s
      ∧ (s.length ≤ 2048 → truncPassedBody s = s)
      ∧ truncPassedBody (truncPassedBody s) = truncPassedBody s
      ∧ (s.length ≤ 800 → truncateStackTrace s = s)
      ∧ truncateStackTrace (truncateStackTrace s) = truncateStackTrace s := by
  refine ⟨?_, truncFieldName_idem s, ?_, truncFieldValue_idem s, ?_,
    truncPassedBody_idem s, ?_, truncateStackTrace_idem s⟩
  · intro h; rw [truncFieldName, if_neg (by omega)]
  · intro h; rw [truncFieldValue, if_neg (by omega)]
  · intro h; rw [truncPassedBody, if_neg (by omega)]
  · intro h; rw [truncateStackTrace, if_pos h]

/-- Witness for C8 at a concrete short string. -/
theorem c8_truncation_idempotent_witness :
    truncFieldName (str "a > b") = str "a > b"
      ∧ truncateStackTrace (str "at line 1") = str "at line 1" :=
  ⟨(c8_truncation_idempotent (str "a > b")).1 (by decide),
   (c8_truncation_idempotent (str "at line 1")).2.2.2.2.2.2.1 (by decide)⟩

/-- C9: the finish handler skips delivery and warns exactly once when no
webhook URL is resolved; a rejected delivery is caught and logged with the
fixed prefix and the cause, never propagated (the handler is a total
function); a resolved delivery logs the success line. -/
theorem c9_finish_logging (webhookUrl : Str) (outcome : SendOutcome) :
    (webhookUrl = [] →
      finishDelivery webhookUrl outcome
        = (false, [.warnLine (str "⚠️ Discord webhook URL not provided. Skipping notification.")])) ∧
    (webhookUrl ≠ [] → ∀ cause, outcome = .rejected cause →
      finishDelivery webhookUrl outcome
        = (true, [.errorLine (str "❌ Failed to send Discord notification:") cause])) ∧
    (webhookUrl ≠ [] → outcome = .resolved →
      finishDelivery webhookUrl outcome
        = (true, [.logLine (str "✅ Discord notification sent")])) := by
  refine ⟨?_, ?_, ?_⟩
  · intro h
    simp [finishDelivery, h]
  · rintro h cause rfl
    simp [finishDelivery, h]
  · rintro h rfl
    simp [finishDelivery, h]

/-- Witness for C9 at concrete inputs. -/
theorem c9_finish_logging_witness :
    finishDelivery [] .resolved
      = (false, [.warnLine (str "⚠️ Discord webhook URL not provided. Skipping notification.")])
    ∧ finishDelivery (str "https://example.test/hook") (.rejected (str "timeout"))
      = (true, [.errorLine (str "❌ Failed to send Discord notification:") (str "timeout")])
    ∧ finishDelivery (str "https://example.test/hook") .resolved
      = (true, [.logLine (str "✅ Discord notification sent")]) :=
  ⟨(c9_finish_logging [] .resolved).1 rfl,
   (c9_finish_logging (str "https://example.test/hook")
      (.rejected (str "timeout"))).2.1 (by decide) (str "timeout") rfl,
   (c9_finish_logging (str "https://example.test/hook") .resolved).2.2 (by decide) rfl⟩

/-- C10: the three traversals agree: the failed count of `calculateStats`
equals the length of `getFailedTests`, the passed count equals the length
of the list `buildPassedTestsEmbed` collects, and the passed-details
embed exists exactly when the passed count is positive. -/
theorem c10_traversals_agree (inc : Bool) (files : List RunnerTestFile) :
    (calculateStats files).failed = (getFailedTests inc files).length
      ∧ (calculateStats files).passed = (collectPassedTests files).length
      ∧ (buildPassedTestsEmbed files = none ↔ (calculateStats files).passed = 0) := by
  refine ⟨(getFailedTests_length inc files).symm,
    (collectPassedTests_length files).symm, ?_⟩
  rw [buildPassedTestsEmbed_none_iff, ← collectPassedTests_length files,
    List.length_eq_zero]

/-- C5: `buildEmbeds` emits the summary message exactly once and first:
red color exactly when `failed > 0`, five fields in the fixed order
Passed, Failed, Skipped, Duration, Total with the decimal count strings
and the two-decimal duration, and the `mentionOnFailure` description
exactly when `failed > 0` and that string is non-empty; every other
emitted message is one of the two detail messages. -/
theorem c5_summary_message (opts : DiscordReporterOptions) (files : List RunnerTestFile)
    (duration : Nat) (ts : Str) :
    ∃ tail : List APIEmbed,
      buildEmbeds opts files duration ts
        = ({ title := some opts.title
             color := some (if (calculateStats files).failed > 0 then 0xed4245 else 0x57f287)
             description :=
               if (calculateStats files).failed > 0 ∧ opts.mentionOnFailure ≠ [] then
                 some opts.mentionOnFailure
               else none
             fields := some
               [ ⟨str "✅ Passed", natToString (calculateStats files).passed, some true⟩,
                 ⟨str "❌ Failed", natToString (calculateStats files).failed, some true⟩,
                 ⟨str "⏭️ Skipped", natToString (calculateStats files).skipped, some true⟩,
                 ⟨str "⏱️ Duration", formatDuration duration, some true⟩,
                 ⟨str "📊 Total", natToString (calculateStats files).total, some true⟩ ]
             footer := none
             timestamp := some ts } : APIEmbed) :: tail
      ∧ ∀ e ∈ tail, e.timestamp = none
          ∧ (e.title = some (str "❌ Failed Tests") ∨ e.title = some (str "✅ Passed Tests")) := by
  refine ⟨(if (getFailedTests opts.includeStackTrace files).length > 0 then
        match buildFailedTestsEmbed (getFailedTests opts.includeStackTrace files) with
        | some e => [e]
        | none => []
      else []) ++
      (if opts.showPassedTests = true ∧ (calculateStats files).passed > 0 then
        match buildPassedTestsEmbed files with
        | some e => [e]
        | none => []
      else []), rfl, ?_⟩
  intro e he
  rcases List.mem_append.1 he with hf | hp
  · split at hf
    · next h1 =>
      have hne : getFailedTests opts.includeStackTrace files ≠ [] := by
        intro h0
        rw [h0] at h1
        simp at h1
      rw [buildFailedTestsEmbed_of_ne_nil _ hne] at hf
      simp at hf
      subst hf
      exact ⟨rfl, Or.inl rfl⟩
    · simp at hf
  · split at hp
    · next h1 =>
      cases hbp : buildPassedTestsEmbed files with
      | none =>
        rw [hbp] at hp
        simp at hp
      | some e0 =>
        rw [hbp] at hp
        simp at hp
        subst hp
        obtain ⟨ht0, htime, -, -⟩ := buildPassedTestsEmbed_props hbp
        exact ⟨htime, Or.inr ht0⟩
    · simp at hp

/-- C6: `buildEmbeds` includes a failed-details message exactly when the
failed list is non-empty (when it is empty every emitted message carries
the success color); when non-empty, the message sits at index 1, its
fields are the first `min(10, N)` failed records in traversal order with
the 256/1024-character truncations of the claim, and its description is
the "Showing 10 of N" line exactly when `N > 10`. -/
theorem c6_failed_details (opts : DiscordReporterOptions) (files : List RunnerTestFile)
    (duration : Nat) (ts : Str) :
    (getFailedTests opts.includeStackTrace files = [] →
      ∀ e ∈ buildEmbeds opts files duration ts, e.color = some 0x57f287) ∧
    (getFailedTests opts.includeStackTrace files ≠ [] →
      ∃ e, buildFailedTestsEmbed (getFailedTests opts.includeStackTrace files) = some e
        ∧ (buildEmbeds opts files duration ts)[1]? = some e
        ∧ e.fields = some (((getFailedTests opts.includeStackTrace files).take 10).map
            (fun t => ⟨specTruncName t.name, specTruncValue t.error, none⟩))
        ∧ e.description =
            (if 10 < (getFailedTests opts.includeStackTrace files).length then
              some (str "Showing 10 of "
                ++ natToString (getFailedTests opts.includeStackTrace files).length
                ++ str " failed tests")
            else none)) := by
  constructor
  · intro hnil e he
    have hf0 : (calculateStats files).failed = 0 := by
      rw [← getFailedTests_length opts.includeStackTrace, hnil]
      rfl
    simp only [buildEmbeds, hnil, hf0, List.length_nil, gt_iff_lt, Nat.lt_irrefl,
      if_false, List.append_nil, List.nil_append, List.cons_append] at he
    rcases List.mem_cons.1 he with rfl | hp
    · rfl
    · split at hp
      · next h1 =>
        cases hbp : buildPassedTestsEmbed files with
        | none =>
          rw [hbp] at hp
          simp at hp
        | some e0 =>
          rw [hbp] at hp
          simp at hp
          subst hp
          exact (buildPassedTestsEmbed_props hbp).2.2.1
      · simp at hp
  · intro hne
    refine ⟨_, buildFailedTestsEmbed_of_ne_nil _ hne, ?_, ?_, ?_⟩
    · have hpos : (getFailedTests opts.includeStackTrace files).length > 0 :=
        List.length_pos.mpr hne
      simp only [buildEmbeds, hpos, if_true,
        buildFailedTestsEmbed_of_ne_nil _ hne]
      simp
    · simp only [truncFieldName_eq_spec, truncFieldValue_eq_spec]
    · rfl

/-- Witness for C6 at a concrete input with one failing test. -/
theorem c6_failed_details_witness :
    getFailedTests smallOpts.includeStackTrace smallFiles ≠ []
    ∧ (∃ e, buildFailedTestsEmbed (getFailedTests smallOpts.includeStackTrace smallFiles) = some e
        ∧ (buildEmbeds smallOpts smallFiles 2500 (str "now"))[1]? = some e
        ∧ e.fields = some (((getFailedTests smallOpts.includeStackTrace smallFiles).take 10).map
            (fun t => ⟨specTruncName t.name, specTruncValue t.error, none⟩))
        ∧ e.description =
            (if 10 < (getFailedTests smallOpts.includeStackTrace smallFiles).length then
              some (str "Showing 10 of "
                ++ natToString (getFailedTests smallOpts.includeStackTrace smallFiles).length
                ++ str " failed tests")
            else none)) :=
  ⟨by decide, (c6_failed_details smallOpts smallFiles 2500 (str "now")).2 (by decide)⟩

/-- C7: `buildEmbeds` includes the passed-details message exactly when
`showPassedTests` is enabled and the passed count is positive; when
present it is the last message, its body is the spec-side passed body
(first 20 paths, "✓ " prefix, newline join, 2048-cap, empty-body
fallback), and the footer exists exactly when more than 20 tests
passed. -/
theorem c7_passed_details (opts : DiscordReporterOptions) (files : List RunnerTestFile)
    (duration : Nat) (ts : Str) :
    ((opts.showPassedTests = true ∧ (calculateStats files).passed > 0) →
      ∃ e, buildPassedTestsEmbed files = some e
        ∧ (buildEmbeds opts files duration ts).getLast? = some e
        ∧ e.description = some (specPassedBody (collectPassedTests files))
        ∧ e.footer =
            (if 20 < (collectPassedTests files).length then
              some ⟨str "Showing 20 of " ++ natToString (collectPassedTests files).length
                    ++ str " passed tests"⟩
            else none))
    ∧ (¬(opts.showPassedTests = true ∧ (calculateStats files).passed > 0) →
        (buildEmbeds opts files duration ts).length
          = 1 + (if getFailedTests opts.includeStackTrace files = [] then 0 else 1)) := by
  constructor
  · intro hg
    have hpn : collectPassedTests files ≠ [] := by
      intro h0
      have h1 : (calculateStats files).passed = 0 := by
        rw [← collectPassedTests_length, h0]
        rfl
      rw [h1] at hg
      exact absurd hg.2 (by omega)
    refine ⟨_, buildPassedTestsEmbed_of_ne_nil files hpn, ?_, ?_, ?_⟩
    · simp only [buildEmbeds, buildPassedTestsEmbed_of_ne_nil files hpn]
      rw [if_pos hg, List.getLast?_concat]
    · rfl
    · rfl
  · intro hg
    simp only [buildEmbeds, if_neg hg, List.append_nil]
    by_cases hf : getFailedTests opts.includeStackTrace files = []
    · simp [hf]
    · have hpos : (getFailedTests opts.includeStackTrace files).length > 0 :=
        List.length_pos.mpr hf
      simp [hf, hpos, buildFailedTestsEmbed_of_ne_nil _ hf]

/-- Witness for C7 at a concrete input with one passing test. -/
theorem c7_passed_details_witness :
    (smallOpts.showPassedTests = true ∧ (calculateStats smallFiles).passed > 0)
    ∧ (∃ e, buildPassedTestsEmbed smallFiles = some e
        ∧ (buildEmbeds smallOpts smallFiles 2500 (str "now")).getLast? = some e
        ∧ e.description = some (specPassedBody (collectPassedTests smallFiles))
        ∧ e.footer =
            (if 20 < (collectPassedTests smallFiles).length then
              some ⟨str "Showing 20 of " ++ natToString (collectPassedTests smallFiles).length
                    ++ str " passed tests"⟩
            else none)) :=
  ⟨by decide, (c7_passed_details smallOpts smallFiles 2500 (str "now")).1 (by decide)⟩

/-- C4 counterexample: a failing test whose first error carries a present
but empty message produces the record error text "Unknown error" rather
than that (empty) message, because the source applies JavaScript falsy
coalescing, refuting the claim that only an absent message falls back. -/
theorem c4_counterexample :
    (firstError emptyMsgResult).bind (fun e => e.message) = some []
      ∧ (getFailedTests false [emptyMsgFile]).map (fun fr => fr.error)
          = [str "Unknown error"]
      ∧ ¬ (str "Unknown error" = ([] : Str)) := by decide

/-- C4 (amended): the error text equals the first error's message, or the
literal "Unknown error" when the message is absent or empty; when
`includeStackTrace` is enabled and a non-empty stack string exists, the
error text is the message followed by a fenced code block containing the
stack truncated at 800 characters, with "\n... (truncated)" appended
exactly when the original stack exceeds 800 characters and the stack
unchanged otherwise. -/
theorem c4_error_text_amended (inc : Bool) (r : TestResult) :
    failedErrorText inc r = specErrorText inc r := by
  have htr : ∀ st : Str, truncateStackTrace st
      = if 800 < st.length then st.take 800 ++ str "\n... (truncated)" else st := by
    intro st
    rw [truncateStackTrace]
    rcases Nat.lt_or_ge 800 st.length with h | h
    · rw [if_neg (by omega), if_pos h]
    · rw [if_pos h, if_neg (by omega)]
  cases hst : (firstError r).bind (fun e => e.stack) with
  | none => simp [failedErrorText, specErrorText, hst]
  | some st => simp [failedErrorText, specErrorText, hst, htr]

/-- C1 counterexample: with a 2049-character `mentionOnFailure`
configuration and one failing test, the summary message's description has
2049 characters, exceeding the 2048-character ceiling the claim asserts
for every message. -/
theorem c1_counterexample :
    ((buildEmbeds longMentionOpts [emptyMsgFile] 0 []).head?.bind
        (fun e => e.description)).map List.length = some 2049
      ∧ 2048 < 2049 := by
  have hfail : (calculateStats [emptyMsgFile]).failed = 1 := by decide
  have h2049 : longMentionOpts.mentionOnFailure.length = 2049 := by
    rw [show longMentionOpts.mentionOnFailure = List.replicate 2049 'a' from rfl,
      List.length_replicate]
  have hmen : longMentionOpts.mentionOnFailure ≠ [] := by
    intro h
    have hlen := congrArg List.length h
    rw [h2049, List.length_nil] at hlen
    exact absurd hlen (by norm_num)
  refine ⟨?_, by norm_num⟩
  simp only [buildEmbeds]
  simp [hfail, hmen, h2049]

/-- C1 (amended): no message exceeds the size ceilings — at most 10
fields, field names at most 256 characters, field values at most 1024
characters, descriptions at most 2048 characters — provided the
configured `mentionOnFailure` string is itself at most 2048 characters
and the test count and duration are below the astronomical magnitudes at
which their decimal renderings would overflow a field. -/
theorem c1_size_ceilings (opts : DiscordReporterOptions) (files : List RunnerTestFile)
    (duration : Nat) (ts : Str)
    (hm : opts.mentionOnFailure.length ≤ 2048)
    (ht : (calculateStats files).total < 10 ^ 1024)
    (hd : duration < 10 ^ 1021) :
    ∀ e ∈ buildEmbeds opts files duration ts,
      (∀ fs, e.fields = some fs →
        fs.length ≤ 10 ∧ ∀ fld ∈ fs, fld.name.length ≤ 256 ∧ fld.value.length ≤ 1024)
      ∧ (∀ d, e.description = some d → d.length ≤ 2048) := by
  have hnat : ∀ n, n ≤ (calculateStats files).total → (natToString n).length ≤ 1024 :=
    fun n hn => natToString_length_le (lt_of_le_of_lt hn ht) (by norm_num)
  intro e he
  simp only [buildEmbeds, List.mem_append, List.mem_singleton] at he
  rcases he with (rfl | hf) | hp
  · constructor
    · intro fs hfs
      dsimp only at hfs
      obtain rfl := Option.some.inj hfs
      refine ⟨by simp, ?_⟩
      intro fld hfld
      simp only [List.mem_cons, List.not_mem_nil, or_false] at hfld
      rcases hfld with rfl | rfl | rfl | rfl | rfl
      · exact ⟨(by decide : (str "✅ Passed").length ≤ 256),
          hnat _ (calculateStats_passed_le_total files)⟩
      · exact ⟨(by decide : (str "❌ Failed").length ≤ 256),
          hnat _ (calculateStats_failed_le_total files)⟩
      · exact ⟨(by decide : (str "⏭️ Skipped").length ≤ 256),
          hnat _ (calculateStats_skipped_le_total files)⟩
      · exact ⟨(by decide : (str "⏱️ Duration").length ≤ 256),
          formatDuration_length_le hd⟩
      · exact ⟨(by decide : (str "📊 Total").length ≤ 256), hnat _ le_rfl⟩
    · intro d hd0
      dsimp only at hd0
      by_cases hc : (calculateStats files).failed > 0 ∧ opts.mentionOnFailure ≠ []
      · rw [if_pos hc] at hd0
        obtain rfl := Option.some.inj hd0
        exact hm
      · rw [if_neg hc] at hd0
        cases hd0
  · split at hf
    · next h1 =>
      have hne : getFailedTests opts.includeStackTrace files ≠ [] := by
        intro h0
        rw [h0] at h1
        simp at h1
      rw [buildFailedTestsEmbed_of_ne_nil _ hne] at hf
      simp at hf
      subst hf
      constructor
      · intro fs hfs
        dsimp only at hfs
        obtain rfl := Option.some.inj hfs
        constructor
        · simp only [List.length_map, List.length_take]
          omega
        · intro fld hfld
          obtain ⟨t, -, rfl⟩ := List.mem_map.1 (List.take_subset _ _ hfld)
          exact ⟨truncFieldName_length _, truncFieldValue_length _⟩
      · intro d hd0
        dsimp only at hd0
        by_cases hc : (getFailedTests opts.includeStackTrace files).length > 10
        · rw [if_pos hc] at hd0
          obtain rfl := Option.some.inj hd0
          have hn : (natToString (getFailedTests opts.includeStackTrace files).length).length
              ≤ 1024 := by
            rw [getFailedTests_length]
            exact hnat _ (calculateStats_failed_le_total files)
          have l1 : (str "Showing 10 of ").length = 14 := rfl
          have l2 : (str " failed tests").length = 13 := rfl
          simp only [List.length_append]
          omega
        · rw [if_neg hc] at hd0
          cases hd0
    · simp at hf
  · split at hp
    · next h1 =>
      cases hbp : buildPassedTestsEmbed files with
      | none =>
        rw [hbp] at hp
        simp at hp
      | some e0 =>
        rw [hbp] at hp
        simp at hp
        subst hp
        have hpn : collectPassedTests files ≠ [] := by
          intro h0
          rw [(buildPassedTestsEmbed_none_iff files).mpr h0] at hbp
          cases hbp
        rw [buildPassedTestsEmbed_of_ne_nil files hpn] at hbp
        obtain rfl := Option.some.inj hbp
        constructor
        · intro fs hfs
          dsimp only at hfs
          cases hfs
        · intro d hd0
          dsimp only at hd0
          obtain rfl := Option.some.inj hd0
          split
          · decide
          · exact truncPassedBody_length _
    · simp at hp

/-- Witness for C1 at a concrete small input. -/
theorem c1_size_ceilings_witness :
    smallOpts.mentionOnFailure.length ≤ 2048
    ∧ (calculateStats smallFiles).total < 10 ^ 1024
    ∧ (2500 : Nat) < 10 ^ 1021
    ∧ (∀ e ∈ buildEmbeds smallOpts smallFiles 2500 (str "now"),
        (∀ fs, e.fields = some fs →
          fs.length ≤ 10 ∧ ∀ fld ∈ fs, fld.name.length ≤ 256 ∧ fld.value.length ≤ 1024)
        ∧ (∀ d, e.description = some d → d.length ≤ 2048)) := by
  have htot : (calculateStats smallFiles).total < 10 ^ 1024 :=
    lt_of_lt_of_le (by decide : (calculateStats smallFiles).total < 10 ^ 1)
      (Nat.pow_le_pow_right (by norm_num) (by norm_num))
  have hdur : (2500 : Nat) < 10 ^ 1021 :=
    lt_of_lt_of_le (by norm_num : (2500 : Nat) < 10 ^ 4)
      (Nat.pow_le_pow_right (by norm_num) (by norm_num))
  exact ⟨by decide, htot, hdur,
    c1_size_ceilings smallOpts smallFiles 2500 (str "now") (by decide) htot hdur⟩
